import Mathlib

/-!
# default_compare: the `pod_compare` helper

A shallow embedding of `src/default_compare/main.cpp`.

* A class type `T` accepted by `pod_compare` is described by its non-static data
  members and their types (`StructType`); an object of the type holds one value per
  member (`StructType.Obj`), and a pointer to member `Members T::*` is the member's
  name, so that `obj.*m` is `obj m`.
* `tie_helper`, `tie_members` and `pod_compare` follow the three templates of the
  source; `std::to_array`, `std::tie`, the `operator==` of `std::array` (that is
  `std::equal`) and of `std::tuple` are embedded next to them.
* `foo_t` is the struct of the usage example with its `operator==`.
-/

namespace DefaultCompare

/-! ## Data model -/

/-- Type of one non-static data member: a non-array type `E`, or a C-style array
`E[N]`. In both cases `eq` is the `operator==` of `E`. -/
inductive MemberType : Type 1 where
  | scalar (E : Type) (eq : E → E → Bool)
  | array (E : Type) (eq : E → E → Bool) (N : Nat)

/-- Values of a member: one `E`, or the cells `member[0] .. member[N-1]` of `E[N]`. -/
def MemberType.Val : MemberType → Type
  | .scalar E _ => E
  | .array E _ N => Fin N → E

/-- Element type of a member: `E` for `E[N]` and for the non-array type `E`. -/
def MemberType.Elem : MemberType → Type
  | .scalar E _ => E
  | .array E _ _ => E

/-- The `operator==` of the element type. -/
def MemberType.elemEq : (mt : MemberType) → mt.Elem → mt.Elem → Bool
  | .scalar _ eq => eq
  | .array _ eq _ => eq

/-- Reading `member[i]`: defined for an array member and an index `i < N` only. -/
def MemberType.getAt? : (mt : MemberType) → mt.Val → Nat → Option mt.Elem
  | .scalar _ _, _, _ => none
  | .array _ _ N, member, i => if h : i < N then some (member ⟨i, h⟩) else none

/-- The assignment `member[i] = e` on an array member; every other cell is kept.
A non-array member has no cells and is left as it is. -/
def MemberType.setAt : (mt : MemberType) → mt.Val → Nat → mt.Elem → mt.Val
  | .scalar _ _, member, _, _ => member
  | .array _ _ _, member, i, e => fun j => if j.val = i then e else member j

/-- A class type `T` as `pod_compare` sees it: the names of its non-static data
members (with decidable identity) and the type of each. -/
structure StructType : Type 1 where
  Member : Type
  decEq : DecidableEq Member
  type : Member → MemberType

instance (T : StructType) : DecidableEq T.Member := T.decEq

/-- An object of class type `T`: one value per data member. -/
def StructType.Obj (T : StructType) : Type := (m : T.Member) → (T.type m).Val

/-- The assignment `obj.*m = v`: member `m` is replaced, every other member kept. -/
def StructType.Obj.set {T : StructType} (obj : T.Obj) (m : T.Member) (v : (T.type m).Val) :
    T.Obj :=
  Function.update obj m v

/-! ## Standard library pieces used by the helper -/

/-- The class `std::array<E, N>`: `N` elements held in order. -/
structure StdArray (E : Type) (N : Nat) where
  elems : List E
  size_eq : elems.length = N

/-- The function `std::to_array`: copies `member[0] .. member[N-1]`, in this order. -/
def to_array {E : Type} {N : Nat} (member : Fin N → E) : StdArray E N :=
  ⟨List.ofFn member, List.length_ofFn member⟩

/-- The class `std::tuple<const E&>` as returned by `std::tie(member)`. -/
structure StdTie (E : Type) where
  ref : E

/-- The algorithm `std::equal(first1, last1, first2)`: walks both ranges in step and
stops at the first pair of elements that `eq` rejects. The second range is never
shorter than the first here (both come from arrays of the same `N`). -/
def std_equal {E : Type} (eq : E → E → Bool) : List E → List E → Bool
  | [], _ => true
  | _ :: _, [] => false
  | a :: as, b :: bs => if eq a b then std_equal eq as bs else false

/-- The `operator==` of `std::array<E, N>`: `std::equal` over the two element ranges. -/
def StdArray.eq {E : Type} {N : Nat} (eq : E → E → Bool) (lhs rhs : StdArray E N) : Bool :=
  std_equal eq lhs.elems rhs.elems

/-- The `operator==` of `std::tuple<const E&>`: compares the referred values. -/
def StdTie.eq {E : Type} (eq : E → E → Bool) (lhs rhs : StdTie E) : Bool :=
  eq lhs.ref rhs.ref

/-! ## The helper functions -/

/-- Return type of `tie_helper` (`auto`): `std::array<E, N>` for an array member,
`std::tuple<const E&>` for any other member. -/
def MemberType.Tied : MemberType → Type
  | .scalar E _ => StdTie E
  | .array E _ N => StdArray E N

/-- The two overloads of `tie_helper`: the array overload is the more specialised one
and is chosen for `E[N]`, it returns `std::to_array(member)`; every other member goes
to the second overload, which returns `std::tie(member)`. -/
def tie_helper : (mt : MemberType) → mt.Val → mt.Tied
  | .scalar _ _, member => StdTie.mk member
  | .array _ _ _, member => to_array member

/-- The `operator==` between two results of `tie_helper` for the same member. -/
def MemberType.tiedEq : (mt : MemberType) → mt.Tied → mt.Tied → Bool
  | .scalar _ eq, lhs, rhs => StdTie.eq eq lhs rhs
  | .array _ eq _, lhs, rhs => StdArray.eq eq lhs rhs

/-- The type `std::tuple<...>` deduced in `tie_members`: one `tie_helper` result per
member pointer, in the order of the pack. -/
def StdTuple (T : StructType) : List T.Member → Type
  | [] => Unit
  | m :: ms => (T.type m).Tied × StdTuple T ms

/-- The template `tie_members`: `std::tuple{ tie_helper(obj.*members)... }`, one
position per member pointer. (For a pack of one non-array member the deduced tuple
is the `std::tuple<const E&>` itself, not a tuple around it; its `operator==`
compares the same referred value, so the positions below describe that case too.) -/
def tie_members {T : StructType} (obj : T.Obj) : (members : List T.Member) → StdTuple T members
  | [] => ()
  | m :: ms => (tie_helper (T.type m) (obj m), tie_members obj ms)

/-- The `operator==` of `std::tuple`: `get<0>(l) == get<0>(r) && ...` from the first
position to the last; the empty tuple compares equal. -/
def StdTuple.eq {T : StructType} :
    (members : List T.Member) → StdTuple T members → StdTuple T members → Bool
  | [], _, _ => true
  | m :: ms, lhs, rhs => (T.type m).tiedEq lhs.1 rhs.1 && StdTuple.eq ms lhs.2 rhs.2

/-- The template `pod_compare`:
`tie_members(lhs, members...) == tie_members(rhs, members...)`. The `static_assert`
is checked when the template is instantiated and has no run-time part. -/
def pod_compare {T : StructType} (lhs rhs : T.Obj) (members : List T.Member) : Bool :=
  StdTuple.eq members (tie_members lhs members) (tie_members rhs members)

/-! ## The usage example -/

/-- Names of the data members of `foo_t`. -/
inductive foo_member where
  | a | b | c | d
  deriving DecidableEq

/-- The built-in `==` of the signed integer types (`int16_t`, `char`). -/
def int_eq (x y : Int) : Bool := decide (x = y)

/-- The built-in `==` of the unsigned integer types (`uint32_t`, `uint16_t`). -/
def uint_eq (x y : Nat) : Bool := decide (x = y)

/-- The struct `foo_t`: `int16_t a; uint32_t b; char c[8]; uint16_t d[4];`.
Integer values are carried as `Int` (signed) and `Nat` (unsigned). -/
def foo_t : StructType where
  Member := foo_member
  decEq := inferInstance
  type := fun m =>
    match m with
    | .a => .scalar Int int_eq
    | .b => .scalar Nat uint_eq
    | .c => .array Int int_eq 8
    | .d => .array Nat uint_eq 4

/-- Aggregate initialisation `foo_t(a, b, c, d)` with every cell given. -/
def foo_t.init (a : Int) (b : Nat) (c : Fin 8 → Int) (d : Fin 4 → Nat) : foo_t.Obj :=
  fun m =>
    match m with
    | .a => a
    | .b => b
    | .c => c
    | .d => d

/-- Member access `x.a`. -/
def foo_t.a (x : foo_t.Obj) : Int := x foo_member.a

/-- Member access `x.b`. -/
def foo_t.b (x : foo_t.Obj) : Nat := x foo_member.b

/-- Member access `x.c`. -/
def foo_t.c (x : foo_t.Obj) : Fin 8 → Int := x foo_member.c

/-- Member access `x.d`. -/
def foo_t.d (x : foo_t.Obj) : Fin 4 → Nat := x foo_member.d

/-- The `operator==` of `foo_t`:
`pod_compare(lhs, rhs, &foo_t::a, &foo_t::b, &foo_t::c, &foo_t::d)`. -/
def foo_t.operator_eq (lhs rhs : foo_t.Obj) : Bool :=
  pod_compare lhs rhs [foo_member.a, foo_member.b, foo_member.c, foo_member.d]

/-- The classic approach kept in the source as a comment: every field compared by
hand, the two arrays through `std::to_array`. -/
def foo_t.classic_eq (lhs rhs : foo_t.Obj) : Bool :=
  int_eq (foo_t.a lhs) (foo_t.a rhs) &&
  uint_eq (foo_t.b lhs) (foo_t.b rhs) &&
  StdArray.eq int_eq (to_array (foo_t.c lhs)) (to_array (foo_t.c rhs)) &&
  StdArray.eq uint_eq (to_array (foo_t.d lhs)) (to_array (foo_t.d rhs))

/-- A braced initialiser for an array of `N` cells: the listed values first, the
cells left over are zero. -/
def braces {E : Type} [Zero E] {N : Nat} (vals : List E) : Fin N → E :=
  fun i => vals.getD i.val 0

/-- The operand `foo_t(1, 1, {1, 1})` of `main`: `a = 1`, `b = 1`, `c = {1, 1}`, and
`d`, which has no initialiser, is zero in every cell. -/
def main_foo : foo_t.Obj := foo_t.init 1 1 (braces [1, 1]) (braces [])

/-- The values of the first concrete scenario: `a = 1`, `b = 1`,
`c = {1,0,0,0,0,0,0,0}`, `d = {1,0,0,0}`. -/
def scenario_same : foo_t.Obj :=
  foo_t.init 1 1 (braces [1, 0, 0, 0, 0, 0, 0, 0]) (braces [1, 0, 0, 0])

/-- The second operand of the second scenario: as `scenario_same` but for `d[2]`,
changed from `0` to `1`. -/
def scenario_d2 : foo_t.Obj :=
  foo_t.init 1 1 (braces [1, 0, 0, 0, 0, 0, 0, 0]) (braces [1, 0, 1, 0])

/-! ## The struct `Bar` and its defaulted `operator==` -/

/-- The struct `Bar`: `uint16_t a; uint32_t b; char c[8]; uint16_t d[4];`. -/
structure Bar where
  a : Nat
  b : Nat
  c : Fin 8 → Int
  d : Fin 4 → Nat

/-- The defaulted `operator==` of `Bar`, generated by the compiler: the subobjects are
compared in declaration order, an array member element by element in increasing
index, and the first unequal pair ends the comparison with `false`. -/
def Bar.operator_eq (x y : Bar) : Bool :=
  uint_eq x.a y.a && uint_eq x.b y.b &&
    (List.finRange 8).all (fun i => int_eq (x.c i) (y.c i)) &&
    (List.finRange 4).all (fun i => uint_eq (x.d i) (y.d i))

/-- The values of `int16_t`. -/
def int16_range (v : Int) : Prop := -32768 ≤ v ∧ v < 32768

/-- Conversion of an `int16_t` to `uint16_t`: the value modulo `2^16`, which keeps the
16-bit pattern. -/
def int16_to_uint16 (v : Int) : Nat := (v % 65536).toNat

/-- The `Bar` holding the field contents of a `foo_t`: `b`, `c`, `d` as they are and
`a` carried over by its 16-bit pattern. -/
def Bar.of_foo (x : foo_t.Obj) : Bar :=
  ⟨int16_to_uint16 (foo_t.a x), foo_t.b x, foo_t.c x, foo_t.d x⟩

/-- The operand `Bar{1, 1, {1, 1}}` of `main`: `a = 1`, `b = 1`, `c = {1, 1}`, and `d`
zero in every cell. -/
def main_bar : Bar := ⟨1, 1, braces [1, 1], braces []⟩

/-! ## The static assertion

The traits below follow the definitions of the language standard on a fragment of
class types: no base classes, the same access control for all non-static data members,
no bit-fields, no const members, no default member initialisers, and no constructor
besides the special member functions. -/

mutual
/-- Type of a non-static data member, as far as the two traits look at it: an
arithmetic or enumeration type, an object pointer `U*`, a reference `U&`, an array
`E[N]`, or a class type. -/
inductive DataType where
  | arithmetic
  | pointer
  | reference
  | array (elem : DataType) (N : Nat)
  | class_type (c : ClassType)
/-- A class type of the fragment: whether it has virtual functions, whether one of its
special member functions (default constructor, copy or move operation, destructor) is
user-provided, and the types of its non-static data members. -/
inductive ClassType where
  | mk (virtual_functions : Bool) (user_provided : Bool) (members : List DataType)
end

/-- Whether the class has virtual functions (dynamic dispatch). -/
def ClassType.virtual_functions : ClassType → Bool
  | .mk v _ _ => v

/-- Whether a special member function of the class is user-provided, as a class that
releases a resource in its destructor has. -/
def ClassType.user_provided : ClassType → Bool
  | .mk _ u _ => u

/-- The types of the non-static data members. -/
def ClassType.members : ClassType → List DataType
  | .mk _ _ ms => ms

mutual
/-- The trait `std::is_standard_layout` on a member type: scalar types are
standard-layout, a reference is not, an array is when its element type is. -/
def DataType.is_standard_layout : DataType → Bool
  | .arithmetic => true
  | .pointer => true
  | .reference => false
  | .array e _ => e.is_standard_layout
  | .class_type c => c.is_standard_layout
/-- The trait `std::is_standard_layout` on a class of the fragment: no virtual functions
and no non-static data member of reference type or of a type that is not
standard-layout. -/
def ClassType.is_standard_layout : ClassType → Bool
  | .mk v _ ms => !v && DataType.all_standard_layout ms
/-- Every type of the list is standard-layout. -/
def DataType.all_standard_layout : List DataType → Bool
  | [] => true
  | t :: ts => t.is_standard_layout && DataType.all_standard_layout ts
end

mutual
/-- The trait `std::is_trivial` on a member type: scalar types are trivial, an array is
when its element type is; a member of reference type deletes the default constructor of
the class around it. -/
def DataType.is_trivial : DataType → Bool
  | .arithmetic => true
  | .pointer => true
  | .reference => false
  | .array e _ => e.is_trivial
  | .class_type c => c.is_trivial
/-- The trait `std::is_trivial` on a class of the fragment: no virtual functions, no
user-provided special member function, and every non-static data member trivially
default constructible, copyable and destructible. -/
def ClassType.is_trivial : ClassType → Bool
  | .mk v u ms => !v && !u && DataType.all_trivial ms
/-- Every type of the list is trivial. -/
def DataType.all_trivial : List DataType → Bool
  | [] => true
  | t :: ts => t.is_trivial && DataType.all_trivial ts
end

/-- What instantiating the template gives: a diagnostic of the static assertion, or a
function that can be called. -/
inductive Instantiation where
  | static_assertion_failed
  | compiles
  deriving DecidableEq

/-- Instantiation of `pod_compare` for the operand type `T`:
`static_assert(std::is_standard_layout_v<T> && std::is_trivial_v<T>)`. -/
def pod_compare_instantiate (T : ClassType) : Instantiation :=
  if T.is_standard_layout && T.is_trivial then .compiles else .static_assertion_failed

/-- A struct whose only member is a raw pointer: `struct node { int* p; };`. -/
def pointer_struct : ClassType := .mk false false [.pointer]

/-- A struct with a virtual function next to an `int`. -/
def virtual_struct : ClassType := .mk true false [.arithmetic]

/-! ## The comparison with every read checked -/

/-- Outcome of a run in which every dereference is checked: `result` is the boolean
returned, or `none` when a read fell outside its sequence; `reads` lists the positions
dereferenced, in the order of the reads. -/
structure Run where
  result : Option Bool
  reads : List Nat

/-- The loop of `std::equal(first1, last1, first2)` over positions: `k` is the
distance left to `last1`, `i` the position of both iterators. At each step both
ranges are dereferenced at `i`; the loop returns `false` at the first pair that `eq`
rejects and `true` when `first1` reaches `last1`. -/
def std_equal_run {E : Type} (eq : E → E → Bool) (lhs rhs : List E) : Nat → Nat → Run
  | 0, _ => ⟨some true, []⟩
  | k + 1, i =>
    match lhs[i]?, rhs[i]? with
    | some a, some b =>
      if eq a b then
        ⟨(std_equal_run eq lhs rhs k (i + 1)).result,
          i :: (std_equal_run eq lhs rhs k (i + 1)).reads⟩
      else ⟨some false, [i]⟩
    | _, _ => ⟨none, [i]⟩

/-- The `operator==` of `std::array<E, N>` with checked reads:
`std::equal(lhs.begin(), lhs.end(), rhs.begin())`, that is `N` steps from position 0. -/
def StdArray.eq_run {E : Type} {N : Nat} (eq : E → E → Bool) (lhs rhs : StdArray E N) : Run :=
  std_equal_run eq lhs.elems rhs.elems N 0

/-- The `operator==` between two results of `tie_helper` with checked reads: a
`std::tuple<const E&>` compares the two referred values and indexes nothing. -/
def MemberType.tiedEq_run : (mt : MemberType) → mt.Tied → mt.Tied → Run
  | .scalar _ eq, lhs, rhs => ⟨some (StdTie.eq eq lhs rhs), []⟩
  | .array _ eq _, lhs, rhs => StdArray.eq_run eq lhs rhs

/-- The `operator==` of `std::tuple` with checked reads: a position that fails makes
the whole comparison fail, a position that is unequal ends it with `false`. -/
def StdTuple.eq_run {T : StructType} :
    (members : List T.Member) → StdTuple T members → StdTuple T members → Option Bool
  | [], _, _ => some true
  | m :: ms, lhs, rhs =>
    match ((T.type m).tiedEq_run lhs.1 rhs.1).result with
    | none => none
    | some false => some false
    | some true => StdTuple.eq_run ms lhs.2 rhs.2

/-- The values of `double` as far as `==` tells them apart: NaN, the two zeros, and
every other value, which is determined by its bit pattern. -/
inductive double where
  | nan
  | zero (negative : Bool)
  | other (bits : Nat)
  deriving DecidableEq

/-- The built-in `==` of `double`: NaN is unequal to everything, itself included; the
two zeros are equal to each other; any other two values are equal when they are the
same value. -/
def double_eq : double → double → Bool
  | .nan, _ => false
  | _, .nan => false
  | .zero _, .zero _ => true
  | .other a, .other b => decide (a = b)
  | _, _ => false

/-- Names of the data members of `fl_t`. -/
inductive fl_member where
  | g | f | h
  deriving DecidableEq

/-- The struct `fl_t { double g; int f; double h[2]; }`, a standard-layout trivial
type. -/
def fl_t : StructType where
  Member := fl_member
  decEq := inferInstance
  type := fun m =>
    match m with
    | .g => .scalar double double_eq
    | .f => .scalar Int int_eq
    | .h => .array double double_eq 2

/-- Aggregate initialisation `fl_t{g, f, {h0, h1}}`. -/
def fl_t.init (g : double) (f : Int) (h0 h1 : double) : fl_t.Obj :=
  fun m =>
    match m with
    | .g => g
    | .f => f
    | .h => fun i => if i.val = 0 then h0 else h1

/-- The class description of `fl_t` for the static assertion. -/
def fl_class : ClassType := .mk false false [.arithmetic, .arithmetic, .array .arithmetic 2]

/-- The `operator==` of the class
`struct le_t { int v; bool operator==(const le_t& o) const { return v <= o.v; } };`,
which declares no special member function and is standard-layout and trivial. -/
def le_eq (a b : Int) : Bool := decide (a ≤ b)

/-- Name of the data member of `wrap_t`. -/
inductive wrap_member where
  | w
  deriving DecidableEq

/-- The struct `wrap_t { le_t w; }`; a `le_t` is carried as its `v`. -/
def wrap_t : StructType where
  Member := wrap_member
  decEq := inferInstance
  type := fun _ => .scalar Int le_eq

/-- Aggregate initialisation `wrap_t{ {v} }`. -/
def wrap_t.init (v : Int) : wrap_t.Obj := fun _ => v

/-- The class description of `wrap_t` for the static assertion: one member of the
class type `le_t`, which has one arithmetic member. -/
def wrap_class : ClassType := .mk false false [.class_type (.mk false false [.arithmetic])]

/-! ## Vocabulary of the contract -/

/-- Equality of one field of two operands in the words of the contract: a scalar
field by its own equality, an array field of length `N` by equality of the elements
at every index `i` with `0 ≤ i < N`. -/
def MemberType.FieldEqual : (mt : MemberType) → mt.Val → mt.Val → Prop
  | .scalar _ eq, l, r => eq l r = true
  | .array _ eq N, l, r => ∀ i, (h : i < N) → eq (l ⟨i, h⟩) (r ⟨i, h⟩) = true

/-- The `operator==` of the element type decides equality of values: it accepts two
elements exactly when they are the same value. -/
def MemberType.ValueEq (mt : MemberType) : Prop :=
  ∀ x y : mt.Elem, mt.elemEq x y = true ↔ x = y

/-- A type all of whose fields are compared by the value they hold and nothing else,
as the fields of `foo_t` are. -/
def StructType.Comparable (T : StructType) : Prop :=
  ∀ m : T.Member, (T.type m).ValueEq

/-- The comparison of one tuple position: the field selected by `m`, normalised by
`tie_helper` in both operands and compared. -/
def field_eq {T : StructType} (lhs rhs : T.Obj) (m : T.Member) : Bool :=
  (T.type m).tiedEq (tie_helper (T.type m) (lhs m)) (tie_helper (T.type m) (rhs m))

/-- The first reading of the responsibility: the selected fields are compared in the
order given and the walk stops at the first mismatch. -/
def compare_short_circuit {T : StructType} (lhs rhs : T.Obj) : List T.Member → Bool
  | [] => true
  | m :: ms => if field_eq lhs rhs m then compare_short_circuit lhs rhs ms else false

/-- The second reading of the responsibility: the equality of every selected field is
evaluated, and the results are combined with logical AND. -/
def compare_all_and {T : StructType} (lhs rhs : T.Obj) (S : List T.Member) : Bool :=
  (S.map (field_eq lhs rhs)).foldl Bool.and true

/-- The `operator==` of the element type is reflexive: every element is equal to
itself. All built-in `==` are, except on floating-point types (NaN). -/
def MemberType.ReflEq (mt : MemberType) : Prop :=
  ∀ a : mt.Elem, mt.elemEq a a = true

/-- The `operator==` of the element type is symmetric, as every built-in `==` is. -/
def MemberType.SymmEq (mt : MemberType) : Prop :=
  ∀ a b : mt.Elem, mt.elemEq a b = true → mt.elemEq b a = true

/-- The `operator==` of the element type is transitive, as every built-in `==` is. -/
def MemberType.TransEq (mt : MemberType) : Prop :=
  ∀ a b c : mt.Elem, mt.elemEq a b = true → mt.elemEq b c = true → mt.elemEq a c = true

/-- The `operator==` of the element type accepts no two different values. All built-in
`==` do so, except on floating-point types (the two zeros). -/
def MemberType.SeparatingEq (mt : MemberType) : Prop :=
  ∀ a b : mt.Elem, mt.elemEq a b = true → a = b

/-! ## Basic facts -/

theorem std_equal_ofFn_iff {E : Type} (eq : E → E → Bool) :
    ∀ {N : Nat} (l r : Fin N → E),
      std_equal eq (List.ofFn l) (List.ofFn r) = true ↔ ∀ i : Fin N, eq (l i) (r i) = true
  | 0, l, r => by simp [std_equal]
  | N + 1, l, r => by
    rw [List.ofFn_succ, List.ofFn_succ, Fin.forall_fin_succ]
    simp only [std_equal]
    by_cases h : eq (l 0) (r 0) = true
    · simp only [h, if_true, true_and]
      exact std_equal_ofFn_iff eq (fun i => l i.succ) (fun i => r i.succ)
    · simp [h]

theorem tiedEq_tie_helper_iff (mt : MemberType) (l r : mt.Val) :
    mt.tiedEq (tie_helper mt l) (tie_helper mt r) = true ↔ mt.FieldEqual l r := by
  cases mt with
  | scalar E eq => simp [MemberType.tiedEq, tie_helper, StdTie.eq, MemberType.FieldEqual]
  | array E eq N =>
    simp only [MemberType.tiedEq, tie_helper, StdArray.eq, to_array, MemberType.FieldEqual]
    rw [std_equal_ofFn_iff]
    constructor
    · intro h i hi
      exact h ⟨i, hi⟩
    · intro h i
      exact h i.val i.isLt

theorem pod_compare_cons_eq {T : StructType} (lhs rhs : T.Obj) (m : T.Member)
    (ms : List T.Member) :
    pod_compare lhs rhs (m :: ms) =
      ((T.type m).tiedEq (tie_helper (T.type m) (lhs m)) (tie_helper (T.type m) (rhs m)) &&
        pod_compare lhs rhs ms) :=
  rfl

theorem pod_compare_all_fields {T : StructType} (lhs rhs : T.Obj) (S : List T.Member) :
    pod_compare lhs rhs S = true ↔ ∀ m ∈ S, (T.type m).FieldEqual (lhs m) (rhs m) := by
  induction S with
  | nil => simp [pod_compare, StdTuple.eq]
  | cons m ms ih =>
    rw [pod_compare_cons_eq, Bool.and_eq_true, tiedEq_tie_helper_iff, ih]
    simp

theorem fieldEqual_iff_eq (mt : MemberType) (hv : mt.ValueEq) (l r : mt.Val) :
    mt.FieldEqual l r ↔ l = r := by
  cases mt with
  | scalar E eq => exact hv l r
  | array E eq N =>
    constructor
    · intro h
      funext i
      exact (hv (l i) (r i)).1 (h i.val i.isLt)
    · intro h i hi
      exact (hv _ _).2 (congrFun h _)

theorem pod_compare_iff_agree {T : StructType} (hT : T.Comparable) (lhs rhs : T.Obj)
    (S : List T.Member) : pod_compare lhs rhs S = true ↔ ∀ m ∈ S, lhs m = rhs m := by
  rw [pod_compare_all_fields]
  constructor
  · intro h m hm
    exact (fieldEqual_iff_eq _ (hT m) _ _).1 (h m hm)
  · intro h m hm
    exact (fieldEqual_iff_eq _ (hT m) _ _).2 (h m hm)

theorem pod_compare_depends_on_selected {T : StructType} (x x' y y' : T.Obj)
    (S : List T.Member) (hx : ∀ m ∈ S, x m = x' m) (hy : ∀ m ∈ S, y m = y' m) :
    pod_compare x y S = pod_compare x' y' S := by
  induction S with
  | nil => rfl
  | cons m ms ih =>
    rw [pod_compare_cons_eq, pod_compare_cons_eq, hx m (List.mem_cons_self m ms),
      hy m (List.mem_cons_self m ms),
      ih (fun k hk => hx k (List.mem_cons_of_mem m hk))
        (fun k hk => hy k (List.mem_cons_of_mem m hk))]

theorem set_other {T : StructType} (obj : T.Obj) (f : T.Member) (v : (T.type f).Val)
    (m : T.Member) (h : m ≠ f) : obj.set f v m = obj m := by
  unfold StructType.Obj.set
  exact @Function.update_noteq T.Member (fun k => (T.type k).Val) _ m f h v obj

theorem set_this {T : StructType} (obj : T.Obj) (f : T.Member) (v : (T.type f).Val) :
    obj.set f v f = v := by
  unfold StructType.Obj.set
  exact @Function.update_same T.Member (fun k => (T.type k).Val) _ f v obj

theorem set_twice {T : StructType} (obj : T.Obj) (f : T.Member) (v w : (T.type f).Val) :
    (obj.set f v).set f w = obj.set f w := by
  unfold StructType.Obj.set
  exact @Function.update_idem T.Member _ (fun k => (T.type k).Val) f v w obj

theorem set_unchanged {T : StructType} (obj : T.Obj) (f : T.Member) :
    obj.set f (obj f) = obj := by
  unfold StructType.Obj.set
  exact @Function.update_eq_self T.Member (fun k => (T.type k).Val) _ f obj

theorem setAt_restore (mt : MemberType) (member : mt.Val) (i : Nat) (old e : mt.Elem)
    (hi : mt.getAt? member i = some old) : mt.setAt (mt.setAt member i e) i old = member := by
  cases mt with
  | scalar E eq => rfl
  | array E eq N =>
    simp only [MemberType.getAt?] at hi
    split at hi
    · rename_i h
      funext j
      simp only [MemberType.setAt]
      by_cases hj : j.val = i
      · have hji : j = ⟨i, h⟩ := Fin.ext hj
        simp only [hj, if_true]
        rw [hji]
        exact (Option.some.inj hi).symm
      · simp only [hj, if_false]
    · exact absurd hi (by simp)

theorem setAt_differs (mt : MemberType) (member : mt.Val) (i : Nat) (old e : mt.Elem)
    (hi : mt.getAt? member i = some old) (he : e ≠ old) : mt.setAt member i e ≠ member := by
  cases mt with
  | scalar E eq => simp [MemberType.getAt?] at hi
  | array E eq N =>
    simp only [MemberType.getAt?] at hi
    split at hi
    · rename_i h
      intro hcontra
      have h1 := congrFun hcontra ⟨i, h⟩
      simp only [MemberType.setAt, if_true] at h1
      exact he (h1.trans (Option.some.inj hi))
    · exact absurd hi (by simp)

theorem foo_t_comparable : foo_t.Comparable := by
  intro m x y
  cases m <;> simp [foo_t, MemberType.elemEq, int_eq, uint_eq]

theorem foldl_and_eq (b : Bool) (l : List Bool) :
    l.foldl Bool.and b = (b && l.foldl Bool.and true) := by
  induction l generalizing b with
  | nil => simp
  | cons c cs ih =>
    rw [List.foldl_cons, List.foldl_cons, ih (b && c), ih (true && c)]
    simp [Bool.and_assoc]

theorem short_circuit_eq_pod_compare {T : StructType} (lhs rhs : T.Obj) (S : List T.Member) :
    compare_short_circuit lhs rhs S = pod_compare lhs rhs S := by
  induction S with
  | nil => rfl
  | cons m ms ih =>
    rw [pod_compare_cons_eq, compare_short_circuit, ih]
    cases h : field_eq lhs rhs m
    · have h1 : (T.type m).tiedEq (tie_helper (T.type m) (lhs m))
          (tie_helper (T.type m) (rhs m)) = false := h
      simp [h1]
    · have h1 : (T.type m).tiedEq (tie_helper (T.type m) (lhs m))
          (tie_helper (T.type m) (rhs m)) = true := h
      simp [h1]

theorem all_and_eq_pod_compare {T : StructType} (lhs rhs : T.Obj) (S : List T.Member) :
    compare_all_and lhs rhs S = pod_compare lhs rhs S := by
  induction S with
  | nil => rfl
  | cons m ms ih =>
    rw [pod_compare_cons_eq, ← ih]
    unfold compare_all_and
    rw [List.map_cons, List.foldl_cons, foldl_and_eq]
    simp [field_eq]

theorem to_array_injective {E : Type} {N : Nat} (l r : Fin N → E)
    (h : to_array l = to_array r) : l = r :=
  List.ofFn_injective (congrArg StdArray.elems h)

theorem all_trivial_mem (ms : List DataType) (h : DataType.all_trivial ms = true) :
    ∀ t ∈ ms, t.is_trivial = true := by
  induction ms with
  | nil => intro t ht; cases ht
  | cons u us ih =>
    rw [DataType.all_trivial, Bool.and_eq_true] at h
    intro t ht
    rcases List.mem_cons.1 ht with rfl | ht
    · exact h.1
    · exact ih h.2 t ht

theorem instantiate_compiles_iff (T : ClassType) :
    pod_compare_instantiate T = Instantiation.compiles ↔
      T.is_standard_layout = true ∧ T.is_trivial = true := by
  unfold pod_compare_instantiate
  cases T.is_standard_layout <;> cases T.is_trivial <;> simp

theorem not_trivial_rejected (T : ClassType) (h : T.is_trivial = false) :
    pod_compare_instantiate T = Instantiation.static_assertion_failed := by
  unfold pod_compare_instantiate
  simp [h]

theorem class_trivial_parts (T : ClassType) (h : T.is_trivial = true) :
    T.virtual_functions = false ∧ T.user_provided = false ∧
      ∀ t ∈ T.members, t.is_trivial = true := by
  cases T with
  | mk v u ms =>
    simp only [ClassType.is_trivial, Bool.and_eq_true, Bool.not_eq_true'] at h
    exact ⟨h.1.1, h.1.2, all_trivial_mem ms h.2⟩

theorem fieldEqual_refl (mt : MemberType) (h : mt.ReflEq) (v : mt.Val) :
    mt.FieldEqual v v := by
  cases mt with
  | scalar E eq => exact h v
  | array E eq N =>
    intro i hi
    exact h (v ⟨i, hi⟩)

theorem fieldEqual_symm (mt : MemberType) (h : mt.SymmEq) (l r : mt.Val)
    (hlr : mt.FieldEqual l r) : mt.FieldEqual r l := by
  cases mt with
  | scalar E eq => exact h l r hlr
  | array E eq N =>
    intro i hi
    exact h _ _ (hlr i hi)

theorem fieldEqual_trans (mt : MemberType) (h : mt.TransEq) (u v w : mt.Val)
    (huv : mt.FieldEqual u v) (hvw : mt.FieldEqual v w) : mt.FieldEqual u w := by
  cases mt with
  | scalar E eq => exact h u v w huv hvw
  | array E eq N =>
    intro i hi
    exact h _ _ _ (huv i hi) (hvw i hi)

theorem fieldEqual_separating (mt : MemberType) (h : mt.SeparatingEq) (l r : mt.Val)
    (hlr : mt.FieldEqual l r) : l = r := by
  cases mt with
  | scalar E eq => exact h l r hlr
  | array E eq N =>
    funext i
    exact h _ _ (hlr i.val i.isLt)

theorem fieldEqual_setAt_left (mt : MemberType) (hs : mt.SymmEq) (ht : mt.TransEq)
    (xv yv : mt.Val) (i : Nat) (old e : mt.Elem) (hxy : mt.FieldEqual xv yv)
    (hi : mt.getAt? xv i = some old) (he : mt.elemEq e old = false) :
    ¬ mt.FieldEqual (mt.setAt xv i e) yv := by
  cases mt with
  | scalar E eq => simp [MemberType.getAt?] at hi
  | array E eq N =>
    simp only [MemberType.getAt?] at hi
    split at hi
    · rename_i h
      have hold : xv ⟨i, h⟩ = old := Option.some.inj hi
      intro hcontra
      have h1 : eq e (yv ⟨i, h⟩) = true := by
        have h2 := hcontra i h
        simpa [MemberType.setAt] using h2
      have h3 : eq (yv ⟨i, h⟩) (xv ⟨i, h⟩) = true := hs _ _ (hxy i h)
      have h4 : eq e (xv ⟨i, h⟩) = true := ht _ _ _ h1 h3
      rw [hold] at h4
      have he1 : eq e old = false := he
      rw [h4] at he1
      exact Bool.noConfusion he1
    · exact absurd hi (by simp)

theorem fieldEqual_setAt_right (mt : MemberType) (hs : mt.SymmEq) (ht : mt.TransEq)
    (xv yv : mt.Val) (i : Nat) (old e : mt.Elem) (hxy : mt.FieldEqual xv yv)
    (hi : mt.getAt? yv i = some old) (he : mt.elemEq e old = false) :
    ¬ mt.FieldEqual xv (mt.setAt yv i e) := by
  cases mt with
  | scalar E eq => simp [MemberType.getAt?] at hi
  | array E eq N =>
    simp only [MemberType.getAt?] at hi
    split at hi
    · rename_i h
      have hold : yv ⟨i, h⟩ = old := Option.some.inj hi
      intro hcontra
      have h1 : eq (xv ⟨i, h⟩) e = true := by
        have h2 := hcontra i h
        simpa [MemberType.setAt] using h2
      have h3 : eq e (xv ⟨i, h⟩) = true := hs _ _ h1
      have h4 : eq e (yv ⟨i, h⟩) = true := ht _ _ _ h3 (hxy i h)
      rw [hold] at h4
      have he1 : eq e old = false := he
      rw [h4] at he1
      exact Bool.noConfusion he1
    · exact absurd hi (by simp)

theorem foo_t_field_eq_laws (m : foo_member) :
    (foo_t.type m).ReflEq ∧ (foo_t.type m).SymmEq ∧ (foo_t.type m).TransEq ∧
      (foo_t.type m).SeparatingEq := by
  cases m <;>
    simp [foo_t, MemberType.ReflEq, MemberType.SymmEq, MemberType.TransEq,
      MemberType.SeparatingEq, MemberType.elemEq, int_eq, uint_eq]

theorem double_eq_symm (a b : double) (h : double_eq a b = true) : double_eq b a = true := by
  cases a <;> cases b <;> simp_all [double_eq, eq_comm]

theorem double_eq_trans (a b c : double) (hab : double_eq a b = true)
    (hbc : double_eq b c = true) : double_eq a c = true := by
  cases a <;> cases b <;> cases c <;> simp_all [double_eq]

/-! ## The contract of `pod_compare` -/

/-- Claim C1. For every pair of operands of the same type and every selector list,
`pod_compare` returns `true` if and only if every selected field is equal in the two
operands (a scalar field by its own equality, an array field of length `N` by equality
of the elements at every index below `N`), and it returns `false` otherwise. -/
theorem pod_compare_true_iff_selected_fields_equal {T : StructType} (lhs rhs : T.Obj)
    (S : List T.Member) :
    (pod_compare lhs rhs S = true ↔ ∀ m ∈ S, (T.type m).FieldEqual (lhs m) (rhs m)) ∧
      (pod_compare lhs rhs S = false ↔ ¬ ∀ m ∈ S, (T.type m).FieldEqual (lhs m) (rhs m)) := by
  refine ⟨pod_compare_all_fields lhs rhs S, ?_⟩
  rw [← pod_compare_all_fields lhs rhs S]
  simp

/-- Claim C2. The `operator==` of `foo_t`, defined through `pod_compare` with the
selectors `a`, `b`, `c`, `d`, returns the same boolean as the classic hand-written
comparison; it is `true` exactly when the operands agree in `a`, in `b`, in `c[i]` for
every `i < 8` and in `d[i]` for every `i < 4`. -/
theorem foo_operator_eq_agrees_with_classic (lhs rhs : foo_t.Obj) :
    foo_t.operator_eq lhs rhs = foo_t.classic_eq lhs rhs ∧
      (foo_t.operator_eq lhs rhs = true ↔
        foo_t.a lhs = foo_t.a rhs ∧ foo_t.b lhs = foo_t.b rhs ∧
          (∀ i : Fin 8, foo_t.c lhs i = foo_t.c rhs i) ∧
          (∀ i : Fin 4, foo_t.d lhs i = foo_t.d rhs i)) := by
  constructor
  · show (int_eq (foo_t.a lhs) (foo_t.a rhs) &&
        (uint_eq (foo_t.b lhs) (foo_t.b rhs) &&
          (StdArray.eq int_eq (to_array (foo_t.c lhs)) (to_array (foo_t.c rhs)) &&
            (StdArray.eq uint_eq (to_array (foo_t.d lhs)) (to_array (foo_t.d rhs)) &&
              true)))) = foo_t.classic_eq lhs rhs
    simp only [foo_t.classic_eq, Bool.and_true, Bool.and_assoc]
  · unfold foo_t.operator_eq
    rw [pod_compare_iff_agree foo_t_comparable]
    constructor
    · intro h
      refine ⟨h _ (by simp), h _ (by simp), ?_, ?_⟩
      · intro i
        exact congrFun (h foo_member.c (by simp)) i
      · intro i
        exact congrFun (h foo_member.d (by simp)) i
    · rintro ⟨ha, hb, hc, hd⟩ m -
      cases m
      · exact ha
      · exact hb
      · exact funext hc
      · exact funext hd

/-- Claim C3, as stated, fails: `fl_t` passes the static assertion, and an `fl_t` whose
`g` is NaN does not compare equal to itself under the selector `g`. -/
theorem nan_operand_is_not_equal_to_itself :
    pod_compare_instantiate fl_class = Instantiation.compiles ∧
      pod_compare (fl_t.init double.nan 1 (double.zero false) (double.zero false))
        (fl_t.init double.nan 1 (double.zero false) (double.zero false)) [fl_member.g] =
          false := by
  constructor <;> decide

/-- Claim C3, amended. Reflexivity: `pod_compare x x S` is `true` exactly when every
element held by a selected field of `x` is equal to itself under its `==`; so it is
`true` for every `x` and `S` when the `==` of every selected field is reflexive (every
built-in `==` but the floating-point one), and the two operands built in `main` from
the same initialisers `foo_t(1, 1, {1, 1})` compare equal. -/
theorem pod_compare_reflexive (T : StructType) (x : T.Obj) (S : List T.Member) :
    (pod_compare x x S = true ↔ ∀ m ∈ S, (T.type m).FieldEqual (x m) (x m)) ∧
      ((∀ m ∈ S, (T.type m).ReflEq) → pod_compare x x S = true) ∧
      foo_t.operator_eq main_foo main_foo = true := by
  refine ⟨pod_compare_all_fields x x S, ?_, ?_⟩
  · intro h
    exact (pod_compare_all_fields x x S).2 (fun m hm => fieldEqual_refl _ (h m hm) _)
  · exact (pod_compare_all_fields main_foo main_foo _).2
      (fun m _ => fieldEqual_refl _ (foo_t_field_eq_laws m).1 _)

/-- Claim C4, as stated, fails: `wrap_t` passes the static assertion, its field `w` has
the `operator==` of `le_t`, and the operands `{1}` and `{2}` compare equal in one order
and unequal in the other. -/
theorem asymmetric_field_equality_is_inherited :
    pod_compare_instantiate wrap_class = Instantiation.compiles ∧
      pod_compare (wrap_t.init 1) (wrap_t.init 2) [wrap_member.w] = true ∧
      pod_compare (wrap_t.init 2) (wrap_t.init 1) [wrap_member.w] = false := by
  refine ⟨?_, ?_, ?_⟩ <;> decide

/-- Claim C4, amended. Symmetry: for every `x`, `y` of the same type and every selector
list whose fields have a symmetric `==`, as every built-in `==` is (the floating-point
one included), `pod_compare x y S` equals `pod_compare y x S`. -/
theorem pod_compare_symmetric (T : StructType) (x y : T.Obj) (S : List T.Member)
    (hsymm : ∀ m ∈ S, (T.type m).SymmEq) : pod_compare x y S = pod_compare y x S := by
  rw [Bool.eq_iff_iff, pod_compare_all_fields, pod_compare_all_fields]
  exact ⟨fun h m hm => fieldEqual_symm _ (hsymm m hm) _ _ (h m hm),
    fun h m hm => fieldEqual_symm _ (hsymm m hm) _ _ (h m hm)⟩

theorem pod_compare_symmetric_witness :
    (∀ m ∈ [fl_member.g, fl_member.h], (fl_t.type m).SymmEq) ∧
      pod_compare (fl_t.init double.nan 1 (double.zero false) (double.other 5))
          (fl_t.init (double.other 7) 1 (double.zero true) (double.other 5))
          [fl_member.g, fl_member.h] =
        pod_compare (fl_t.init (double.other 7) 1 (double.zero true) (double.other 5))
          (fl_t.init double.nan 1 (double.zero false) (double.other 5))
          [fl_member.g, fl_member.h] :=
  have hsymm : ∀ m ∈ [fl_member.g, fl_member.h], (fl_t.type m).SymmEq := by
    intro m _
    cases m
    · exact double_eq_symm
    · intro a b h
      exact (foo_t_field_eq_laws foo_member.a).2.1 a b h
    · exact double_eq_symm
  ⟨hsymm, pod_compare_symmetric fl_t _ _ _ hsymm⟩

/-- Claim C5, as stated, fails: two `fl_t` values that differ in exactly the field `g`,
one holding `+0.0` and the other `-0.0`, compare equal although `g` is selected. -/
theorem signed_zeros_differ_but_compare_equal :
    pod_compare_instantiate fl_class = Instantiation.compiles ∧
      fl_t.init (double.zero false) 1 (double.other 5) (double.other 5) fl_member.g ≠
        fl_t.init (double.zero true) 1 (double.other 5) (double.other 5) fl_member.g ∧
      (∀ m, m ≠ fl_member.g →
        fl_t.init (double.zero false) 1 (double.other 5) (double.other 5) m =
          fl_t.init (double.zero true) 1 (double.other 5) (double.other 5) m) ∧
      pod_compare (fl_t.init (double.zero false) 1 (double.other 5) (double.other 5))
        (fl_t.init (double.zero true) 1 (double.other 5) (double.other 5))
        [fl_member.g, fl_member.f, fl_member.h] = true := by
  refine ⟨by decide, ?_, ?_, by decide⟩
  · intro h
    have h1 : double.zero false = double.zero true := h
    exact absurd h1 (by decide)
  · intro m hm
    cases m
    · exact absurd rfl hm
    · rfl
    · rfl

/-- Claim C5, amended. Field sensitivity: when the selector list includes a field `f`
that the field's own equality tells apart in `x` and `y` (for an array, at some
index), `pod_compare x y S` is `false`; this is so for every `x`, `y` holding
different values in `f` when the `==` of `f` accepts no two different values (every
built-in `==` but the floating-point one). Nothing is asked of the other fields, so
this covers operands that differ in exactly the one field `f`. -/
theorem pod_compare_field_sensitive (T : StructType) (x y : T.Obj) (S : List T.Member)
    (f : T.Member) (hf : f ∈ S) :
    (¬ (T.type f).FieldEqual (x f) (y f) → pod_compare x y S = false) ∧
      ((T.type f).SeparatingEq → x f ≠ y f → pod_compare x y S = false) := by
  have key : ¬ (T.type f).FieldEqual (x f) (y f) → pod_compare x y S = false := by
    intro hne
    rw [← Bool.not_eq_true, pod_compare_all_fields]
    exact fun h => hne (h f hf)
  refine ⟨key, ?_⟩
  intro hsep hdiff
  exact key (fun h => hdiff (fieldEqual_separating _ hsep _ _ h))

theorem pod_compare_field_sensitive_witness :
    foo_member.d ∈ [foo_member.c, foo_member.d] ∧
      (foo_t.type foo_member.d).SeparatingEq ∧
      scenario_same foo_member.d ≠ scenario_d2 foo_member.d ∧
      pod_compare scenario_same scenario_d2 [foo_member.c, foo_member.d] = false :=
  have hdiff : scenario_same foo_member.d ≠ scenario_d2 foo_member.d := fun h =>
    absurd (congrFun h (2 : Fin 4)) (by decide)
  ⟨by simp, (foo_t_field_eq_laws foo_member.d).2.2.2, hdiff,
    (pod_compare_field_sensitive foo_t scenario_same scenario_d2
      [foo_member.c, foo_member.d] foo_member.d (by simp)).2
      (foo_t_field_eq_laws foo_member.d).2.2.2 hdiff⟩

/-- Claim C6, as stated, fails in its last part: two `fl_t` values that differ only in
the field `f`, which the selector list `g` excludes, compare unequal when `g` is NaN in
both. -/
theorem excluded_difference_with_nan_compares_unequal :
    pod_compare_instantiate fl_class = Instantiation.compiles ∧
      fl_member.f ∉ [fl_member.g] ∧
      (∀ m, m ≠ fl_member.f →
        fl_t.init double.nan 1 (double.other 5) (double.other 5) m =
          fl_t.init double.nan 2 (double.other 5) (double.other 5) m) ∧
      pod_compare (fl_t.init double.nan 1 (double.other 5) (double.other 5))
        (fl_t.init double.nan 2 (double.other 5) (double.other 5)) [fl_member.g] = false := by
  refine ⟨by decide, by decide, ?_, by decide⟩
  intro m hm
  cases m
  · rfl
  · exact absurd rfl hm
  · rfl

/-- Claim C6, amended. Independence from unselected fields: when the field `f` is not
in the selector list, replacing its value in `x`, or in `y`, by any value `v` leaves
`pod_compare x y S` as it was; in particular operands that differ only in the excluded
field `f` compare as `x` compares with itself, which is `true` when the `==` of every
selected field is reflexive (every built-in `==` but the floating-point one). -/
theorem pod_compare_ignores_unselected (T : StructType) (x y : T.Obj) (S : List T.Member)
    (f : T.Member) (hf : f ∉ S) (v : (T.type f).Val) :
    pod_compare (x.set f v) y S = pod_compare x y S ∧
      pod_compare x (y.set f v) S = pod_compare x y S ∧
      ((∀ g, g ≠ f → x g = y g) →
        pod_compare x y S = pod_compare x x S ∧
          ((∀ m ∈ S, (T.type m).ReflEq) → pod_compare x y S = true)) := by
  have hne : ∀ m ∈ S, m ≠ f := fun m hm h => hf (h ▸ hm)
  refine ⟨?_, ?_, ?_⟩
  · exact pod_compare_depends_on_selected _ _ _ _ S
      (fun m hm => set_other x f v m (hne m hm)) (fun _ _ => rfl)
  · exact pod_compare_depends_on_selected _ _ _ _ S (fun _ _ => rfl)
      (fun m hm => set_other y f v m (hne m hm))
  · intro hrest
    have hxx : pod_compare x y S = pod_compare x x S :=
      pod_compare_depends_on_selected _ _ _ _ S (fun _ _ => rfl)
        (fun m hm => (hrest m (hne m hm)).symm)
    refine ⟨hxx, ?_⟩
    intro hrefl
    rw [hxx]
    exact (pod_compare_all_fields x x S).2 (fun m hm => fieldEqual_refl _ (hrefl m hm) _)

theorem pod_compare_ignores_unselected_witness :
    foo_member.d ∉ [foo_member.a, foo_member.b, foo_member.c] ∧
      (pod_compare (scenario_same.set foo_member.d (braces [7, 7])) scenario_d2
          [foo_member.a, foo_member.b, foo_member.c] =
        pod_compare scenario_same scenario_d2 [foo_member.a, foo_member.b, foo_member.c] ∧
      pod_compare scenario_same (scenario_d2.set foo_member.d (braces [7, 7]))
          [foo_member.a, foo_member.b, foo_member.c] =
        pod_compare scenario_same scenario_d2 [foo_member.a, foo_member.b, foo_member.c] ∧
      ((∀ g, g ≠ foo_member.d → scenario_same g = scenario_d2 g) →
        pod_compare scenario_same scenario_d2 [foo_member.a, foo_member.b, foo_member.c] =
            pod_compare scenario_same scenario_same
              [foo_member.a, foo_member.b, foo_member.c] ∧
          ((∀ m ∈ [foo_member.a, foo_member.b, foo_member.c], (foo_t.type m).ReflEq) →
            pod_compare scenario_same scenario_d2
              [foo_member.a, foo_member.b, foo_member.c] = true))) :=
  ⟨by decide,
    pod_compare_ignores_unselected foo_t scenario_same scenario_d2
      [foo_member.a, foo_member.b, foo_member.c] foo_member.d (by decide) (braces [7, 7])⟩

/-- Claim C7, as stated, fails: two equal `fl_t` values compare equal under the selector
`h`; changing `h[0]` in one of them from `+0.0` to the different value `-0.0` leaves
the result `true`. -/
theorem changed_zero_sign_keeps_arrays_equal :
    pod_compare_instantiate fl_class = Instantiation.compiles ∧
      pod_compare (fl_t.init (double.other 3) 1 (double.zero false) (double.other 5))
        (fl_t.init (double.other 3) 1 (double.zero false) (double.other 5))
        [fl_member.h] = true ∧
      (fl_t.type fl_member.h).getAt?
        (fl_t.init (double.other 3) 1 (double.zero false) (double.other 5) fl_member.h) 0 =
          some (double.zero false) ∧
      double.zero true ≠ double.zero false ∧
      pod_compare
        ((fl_t.init (double.other 3) 1 (double.zero false) (double.other 5)).set fl_member.h
          ((fl_t.type fl_member.h).setAt
            (fl_t.init (double.other 3) 1 (double.zero false) (double.other 5) fl_member.h)
            0 (double.zero true)))
        (fl_t.init (double.other 3) 1 (double.zero false) (double.other 5))
        [fl_member.h] = true := by
  refine ⟨by decide, by decide, rfl, by decide, by decide⟩

/-- Claim C7, amended. Array element sensitivity: let `f` be a selected array field whose
element `==` is symmetric and transitive, as every built-in `==` is, and `x`, `y`
operands with `pod_compare x y S` true. Changing the element at an index `i < N` of `f`
in one operand (the left one or the right one) to a value `e` that `==` tells apart
from the element `old` held there makes `pod_compare` return `false`, and restoring
the original element makes it return `true` again. The premise
`getAt? .. i = some old` says that `f` is an array, `i` is below its length and `old`
is the element held at `i`. -/
theorem pod_compare_array_element_sensitive (T : StructType) (x y : T.Obj)
    (S : List T.Member) (f : T.Member) (i : Nat) (e : (T.type f).Elem)
    (hf : f ∈ S) (hsymm : (T.type f).SymmEq) (htrans : (T.type f).TransEq)
    (hxy : pod_compare x y S = true) :
    (∀ old, (T.type f).getAt? (x f) i = some old → (T.type f).elemEq e old = false →
        pod_compare (x.set f ((T.type f).setAt (x f) i e)) y S = false ∧
          pod_compare
            ((x.set f ((T.type f).setAt (x f) i e)).set f
              ((T.type f).setAt ((T.type f).setAt (x f) i e) i old)) y S = true) ∧
      (∀ old, (T.type f).getAt? (y f) i = some old → (T.type f).elemEq e old = false →
        pod_compare x (y.set f ((T.type f).setAt (y f) i e)) S = false ∧
          pod_compare x
            ((y.set f ((T.type f).setAt (y f) i e)).set f
              ((T.type f).setAt ((T.type f).setAt (y f) i e) i old)) S = true) := by
  have hxyf : (T.type f).FieldEqual (x f) (y f) := (pod_compare_all_fields x y S).1 hxy f hf
  constructor
  · intro old hi he
    constructor
    · rw [← Bool.not_eq_true, pod_compare_all_fields]
      intro h
      have h1 := h f hf
      rw [set_this] at h1
      exact fieldEqual_setAt_left _ hsymm htrans _ _ i old e hxyf hi he h1
    · rw [set_twice, setAt_restore _ _ i old e hi, set_unchanged]
      exact hxy
  · intro old hi he
    constructor
    · rw [← Bool.not_eq_true, pod_compare_all_fields]
      intro h
      have h1 := h f hf
      rw [set_this] at h1
      exact fieldEqual_setAt_right _ hsymm htrans _ _ i old e hxyf hi he h1
    · rw [set_twice, setAt_restore _ _ i old e hi, set_unchanged]
      exact hxy

theorem pod_compare_array_element_sensitive_witness :
    fl_member.h ∈ [fl_member.f, fl_member.h] ∧
      pod_compare (fl_t.init (double.other 3) 1 (double.zero false) (double.other 5))
        (fl_t.init (double.other 3) 1 (double.zero true) (double.other 5))
        [fl_member.f, fl_member.h] = true ∧
      (fl_t.type fl_member.h).getAt?
        (fl_t.init (double.other 3) 1 (double.zero false) (double.other 5) fl_member.h) 1 =
          some (double.other 5) ∧
      double_eq (double.other 6) (double.other 5) = false ∧
      (pod_compare
          ((fl_t.init (double.other 3) 1 (double.zero false) (double.other 5)).set
            fl_member.h
            ((fl_t.type fl_member.h).setAt
              (fl_t.init (double.other 3) 1 (double.zero false) (double.other 5) fl_member.h)
              1 (double.other 6)))
          (fl_t.init (double.other 3) 1 (double.zero true) (double.other 5))
          [fl_member.f, fl_member.h] = false ∧
        pod_compare
          (((fl_t.init (double.other 3) 1 (double.zero false) (double.other 5)).set
            fl_member.h
            ((fl_t.type fl_member.h).setAt
              (fl_t.init (double.other 3) 1 (double.zero false) (double.other 5) fl_member.h)
              1 (double.other 6))).set
            fl_member.h
            ((fl_t.type fl_member.h).setAt
              ((fl_t.type fl_member.h).setAt
                (fl_t.init (double.other 3) 1 (double.zero false) (double.other 5)
                  fl_member.h)
                1 (double.other 6))
              1 (double.other 5)))
          (fl_t.init (double.other 3) 1 (double.zero true) (double.other 5))
          [fl_member.f, fl_member.h] = true) :=
  ⟨by decide, by decide, rfl, by decide,
    (pod_compare_array_element_sensitive fl_t
      (fl_t.init (double.other 3) 1 (double.zero false) (double.other 5))
      (fl_t.init (double.other 3) 1 (double.zero true) (double.other 5))
      [fl_member.f, fl_member.h] fl_member.h 1 (double.other 6) (by decide)
      double_eq_symm double_eq_trans (by decide)).1 (double.other 5) rfl
      (show double_eq (double.other 6) (double.other 5) = false by decide)⟩

/-- Claim C8. With an empty selector list `pod_compare` returns `true` for every pair
of operands. -/
theorem pod_compare_empty_selector_list {T : StructType} (lhs rhs : T.Obj) :
    pod_compare lhs rhs [] = true :=
  rfl

/-- Claim C9. Concrete scenario: for two `foo_t` values both with `a = 1`, `b = 1`,
`c = {1,0,0,0,0,0,0,0}` and `d = {1,0,0,0}`, `pod_compare` with the four selectors
`a`, `b`, `c`, `d` returns `true`. -/
theorem scenario_identical_operands_compare_true :
    pod_compare
      (foo_t.init 1 1 (braces [1, 0, 0, 0, 0, 0, 0, 0]) (braces [1, 0, 0, 0]))
      (foo_t.init 1 1 (braces [1, 0, 0, 0, 0, 0, 0, 0]) (braces [1, 0, 0, 0]))
      [foo_member.a, foo_member.b, foo_member.c, foo_member.d] = true := by
  decide

/-- Claim C10. Concrete scenario: for two `foo_t` values with `a = 1`, `b = 1`,
`c = {1,0,0,0,0,0,0,0}`, one with `d = {1,0,0,0}` and the other with `d = {1,0,1,0}`,
`pod_compare` with the four selectors `a`, `b`, `c`, `d` returns `false`, whichever of
the two operands carries the changed `d[2]`. -/
theorem scenario_d2_changed_compare_false :
    pod_compare
        (foo_t.init 1 1 (braces [1, 0, 0, 0, 0, 0, 0, 0]) (braces [1, 0, 0, 0]))
        (foo_t.init 1 1 (braces [1, 0, 0, 0, 0, 0, 0, 0]) (braces [1, 0, 1, 0]))
        [foo_member.a, foo_member.b, foo_member.c, foo_member.d] = false ∧
      pod_compare
        (foo_t.init 1 1 (braces [1, 0, 0, 0, 0, 0, 0, 0]) (braces [1, 0, 1, 0]))
        (foo_t.init 1 1 (braces [1, 0, 0, 0, 0, 0, 0, 0]) (braces [1, 0, 0, 0]))
        [foo_member.a, foo_member.b, foo_member.c, foo_member.d] = false := by
  constructor <;> decide

/-- Claim C11. Concrete scenario: for the two `foo_t` values that differ only in
`d[2]` (`0` versus `1`), `pod_compare` with the selector list `a`, `b`, `c`, which
omits `d`, returns `true`, whichever operand carries the changed `d[2]`. -/
theorem scenario_d2_changed_d_omitted_compare_true :
    pod_compare
        (foo_t.init 1 1 (braces [1, 0, 0, 0, 0, 0, 0, 0]) (braces [1, 0, 0, 0]))
        (foo_t.init 1 1 (braces [1, 0, 0, 0, 0, 0, 0, 0]) (braces [1, 0, 1, 0]))
        [foo_member.a, foo_member.b, foo_member.c] = true ∧
      pod_compare
        (foo_t.init 1 1 (braces [1, 0, 0, 0, 0, 0, 0, 0]) (braces [1, 0, 1, 0]))
        (foo_t.init 1 1 (braces [1, 0, 0, 0, 0, 0, 0, 0]) (braces [1, 0, 0, 0]))
        [foo_member.a, foo_member.b, foo_member.c] = true := by
  constructor <;> decide

/-- Claim C13, as stated, fails: a struct whose only member is a raw pointer is
standard-layout and trivial, so `pod_compare` is instantiated for it and the static
assertion does not fire; hence not every type with a reference or pointer member is
rejected. -/
theorem pointer_member_type_is_accepted :
    (pointer_struct.members = [DataType.pointer] ∧
        pod_compare_instantiate pointer_struct = Instantiation.compiles) ∧
      ¬ ∀ T : ClassType,
        (T.virtual_functions = true ∨ T.user_provided = true ∨
            DataType.reference ∈ T.members ∨ DataType.pointer ∈ T.members) →
          pod_compare_instantiate T = Instantiation.static_assertion_failed := by
  refine ⟨⟨rfl, rfl⟩, ?_⟩
  intro h
  have h1 := h pointer_struct (Or.inr (Or.inr (Or.inr (List.mem_singleton.2 rfl))))
  exact absurd h1 (by decide)

/-- Claim C13, amended. Type-contract rejection: instantiating `pod_compare` with an
operand type that has virtual functions (dynamic dispatch), that has a user-provided
special member function or a member of a class type with one or with virtual functions
(how a type that owns heap resources is written), or that has a reference member,
fails to compile through the static assertion. -/
theorem static_assertion_rejects (T : ClassType)
    (h : T.virtual_functions = true ∨ T.user_provided = true ∨
      DataType.reference ∈ T.members ∨
      ∃ c, DataType.class_type c ∈ T.members ∧
        (c.virtual_functions = true ∨ c.user_provided = true)) :
    pod_compare_instantiate T = Instantiation.static_assertion_failed := by
  apply not_trivial_rejected
  cases htriv : T.is_trivial
  · rfl
  · exfalso
    obtain ⟨hv, hu, hm⟩ := class_trivial_parts T htriv
    rcases h with h | h | h | ⟨c, hc, h⟩
    · rw [hv] at h
      exact Bool.false_ne_true h
    · rw [hu] at h
      exact Bool.false_ne_true h
    · have h1 := hm _ h
      simp [DataType.is_trivial] at h1
    · have h1 : c.is_trivial = true := by
        have h2 := hm _ hc
        simpa [DataType.is_trivial] using h2
      obtain ⟨hcv, hcu, -⟩ := class_trivial_parts c h1
      rcases h with h | h
      · rw [hcv] at h
        exact Bool.false_ne_true h
      · rw [hcu] at h
        exact Bool.false_ne_true h

theorem static_assertion_rejects_witness :
    virtual_struct.virtual_functions = true ∧
      pod_compare_instantiate virtual_struct = Instantiation.static_assertion_failed :=
  ⟨rfl, static_assertion_rejects virtual_struct (Or.inl rfl)⟩

/-- Claim C14. For every pair of operands and every selector list, comparing the
selected fields in the order given and stopping at the first mismatch yields the same
boolean as evaluating the equality of every selected field and combining all of them
with logical AND, and both equal the result of the tuple comparison of `pod_compare`. -/
theorem short_circuit_all_and_pod_compare_agree {T : StructType} (lhs rhs : T.Obj)
    (S : List T.Member) :
    compare_short_circuit lhs rhs S = compare_all_and lhs rhs S ∧
      compare_short_circuit lhs rhs S = pod_compare lhs rhs S ∧
      compare_all_and lhs rhs S = pod_compare lhs rhs S :=
  ⟨(short_circuit_eq_pod_compare lhs rhs S).trans (all_and_eq_pod_compare lhs rhs S).symm,
    short_circuit_eq_pod_compare lhs rhs S, all_and_eq_pod_compare lhs rhs S⟩

/-- Claim C15. Normalisation preserves content: for an array field of length `N`,
`tie_helper` yields a sequence of length `N` whose element at each index `i < N` is the
element of the field at index `i`; for a non-array field it yields the value of the
field unchanged; hence two normalised fields are equal if and only if the original
fields are, both as values and under the comparison of `pod_compare`. -/
theorem tie_helper_preserves_content :
    (∀ (E : Type) (eq : E → E → Bool) (N : Nat) (member : Fin N → E),
      StdArray.elems (tie_helper (MemberType.array E eq N) member) = List.ofFn member ∧
        (StdArray.elems (tie_helper (MemberType.array E eq N) member)).length = N ∧
        ∀ i, (h : i < N) →
          (StdArray.elems (tie_helper (MemberType.array E eq N) member))[i]? =
            some (member ⟨i, h⟩)) ∧
      (∀ (E : Type) (eq : E → E → Bool) (member : E),
        StdTie.ref (tie_helper (MemberType.scalar E eq) member) = member) ∧
      (∀ (mt : MemberType) (l r : mt.Val),
        (tie_helper mt l = tie_helper mt r ↔ l = r) ∧
          (mt.tiedEq (tie_helper mt l) (tie_helper mt r) = true ↔ mt.FieldEqual l r)) := by
  refine ⟨?_, ?_, ?_⟩
  · intro E eq N member
    refine ⟨rfl, List.length_ofFn member, ?_⟩
    intro i h
    show (List.ofFn member)[i]? = some (member ⟨i, h⟩)
    rw [List.getElem?_ofFn]
    simp [List.ofFnNthVal, h]
  · intro E eq member
    rfl
  · intro mt l r
    refine ⟨⟨?_, fun h => h ▸ rfl⟩, tiedEq_tie_helper_iff mt l r⟩
    cases mt with
    | scalar E eq =>
      intro h
      exact congrArg StdTie.ref h
    | array E eq N =>
      intro h
      exact to_array_injective l r h

/-- Claim C16. The result of `pod_compare` depends only on the set of selected fields:
two selector lists that contain the same selectors, in any order and with any
repetition, give the same result on every pair of operands. -/
theorem pod_compare_same_selector_set {T : StructType} (x y : T.Obj) (S S' : List T.Member)
    (hS : ∀ m, m ∈ S ↔ m ∈ S') : pod_compare x y S = pod_compare x y S' := by
  rw [Bool.eq_iff_iff, pod_compare_all_fields, pod_compare_all_fields]
  exact ⟨fun h m hm => h m ((hS m).2 hm), fun h m hm => h m ((hS m).1 hm)⟩

theorem pod_compare_same_selector_set_witness :
    (∀ m, m ∈ [foo_member.a, foo_member.d] ↔ m ∈ [foo_member.d, foo_member.a, foo_member.d]) ∧
      pod_compare scenario_same scenario_d2 [foo_member.a, foo_member.d] =
        pod_compare scenario_same scenario_d2 [foo_member.d, foo_member.a, foo_member.d] :=
  have hS : ∀ m, m ∈ [foo_member.a, foo_member.d] ↔
      m ∈ [foo_member.d, foo_member.a, foo_member.d] := by
    intro m
    cases m <;> simp
  ⟨hS, pod_compare_same_selector_set scenario_same scenario_d2 _ _ hS⟩

/-- Claim C17, as stated, fails in its conclusion: on `fl_t`, which passes the static
assertion, being compared equal under the selector `g` is not an equivalence relation,
since an operand whose `g` is NaN is not related to itself. -/
theorem compared_equal_is_not_an_equivalence :
    pod_compare_instantiate fl_class = Instantiation.compiles ∧
      ¬ Equivalence (fun u v : fl_t.Obj => pod_compare u v [fl_member.g] = true) := by
  refine ⟨by decide, ?_⟩
  intro h
  have h1 := h.refl (fl_t.init double.nan 1 (double.zero false) (double.zero false))
  exact absurd h1 (by decide)

/-- Claim C17, amended. Transitivity: for `x`, `y`, `z` of the same type and every
selector list whose fields have a transitive `==`, as every built-in `==` is (the
floating-point one included), if `pod_compare x y S` and `pod_compare y z S` are true
then `pod_compare x z S` is true; when the `==` of the selected fields is also
reflexive and symmetric, being compared equal under `S` is an equivalence relation. -/
theorem pod_compare_transitive (T : StructType) (S : List T.Member)
    (htrans : ∀ m ∈ S, (T.type m).TransEq)
    (x y z : T.Obj) (hxy : pod_compare x y S = true) (hyz : pod_compare y z S = true) :
    pod_compare x z S = true ∧
      ((∀ m ∈ S, (T.type m).ReflEq) → (∀ m ∈ S, (T.type m).SymmEq) →
        Equivalence (fun u v : T.Obj => pod_compare u v S = true)) := by
  have htr : ∀ u v w : T.Obj, pod_compare u v S = true → pod_compare v w S = true →
      pod_compare u w S = true := by
    intro u v w huv hvw
    rw [pod_compare_all_fields] at huv hvw ⊢
    exact fun m hm => fieldEqual_trans _ (htrans m hm) _ _ _ (huv m hm) (hvw m hm)
  refine ⟨htr x y z hxy hyz, ?_⟩
  intro hrefl hsymm
  refine ⟨?_, ?_, ?_⟩
  · intro u
    exact (pod_compare_all_fields u u S).2 (fun m hm => fieldEqual_refl _ (hrefl m hm) _)
  · intro u v huv
    rw [pod_compare_all_fields] at huv ⊢
    exact fun m hm => fieldEqual_symm _ (hsymm m hm) _ _ (huv m hm)
  · intro u v w huv hvw
    exact htr u v w huv hvw

theorem pod_compare_transitive_witness :
    (∀ m ∈ [fl_member.g, fl_member.f], (fl_t.type m).TransEq) ∧
      pod_compare (fl_t.init (double.zero false) 1 double.nan double.nan)
        (fl_t.init (double.zero true) 1 (double.other 5) double.nan)
        [fl_member.g, fl_member.f] = true ∧
      pod_compare (fl_t.init (double.zero true) 1 (double.other 5) double.nan)
        (fl_t.init (double.zero false) 1 (double.other 6) (double.other 6))
        [fl_member.g, fl_member.f] = true ∧
      pod_compare (fl_t.init (double.zero false) 1 double.nan double.nan)
        (fl_t.init (double.zero false) 1 (double.other 6) (double.other 6))
        [fl_member.g, fl_member.f] = true :=
  have htrans : ∀ m ∈ [fl_member.g, fl_member.f], (fl_t.type m).TransEq := by
    intro m _
    cases m
    · exact double_eq_trans
    · intro a b c hab hbc
      exact (foo_t_field_eq_laws foo_member.a).2.2.1 a b c hab hbc
    · exact double_eq_trans
  ⟨htrans, by decide, by decide,
    (pod_compare_transitive fl_t [fl_member.g, fl_member.f] htrans
      (fl_t.init (double.zero false) 1 double.nan double.nan)
      (fl_t.init (double.zero true) 1 (double.other 5) double.nan)
      (fl_t.init (double.zero false) 1 (double.other 6) (double.other 6))
      (by decide) (by decide)).1⟩

/-- Claim C18. The `char[8]` field `c` is compared over all 8 elements and not as a
NUL-terminated string: two `foo_t` values that agree in `a`, `b`, `d` and in `c` up to
and including a zero byte at an index `k < 7`, but differ in `c` at an index `j` with
`k < j < 8`, are unequal under `operator==`. -/
theorem foo_c_not_compared_as_string (x y : foo_t.Obj) (k j : Fin 8)
    (_ha : foo_t.a x = foo_t.a y) (_hb : foo_t.b x = foo_t.b y)
    (_hd : foo_t.d x = foo_t.d y)
    (_hagree : ∀ i : Fin 8, i ≤ k → foo_t.c x i = foo_t.c y i)
    (_hnul : foo_t.c x k = 0) (_hk : k.val < 7) (_hkj : k < j)
    (hdiff : foo_t.c x j ≠ foo_t.c y j) :
    foo_t.operator_eq x y = false := by
  unfold foo_t.operator_eq
  rw [← Bool.not_eq_true, pod_compare_iff_agree foo_t_comparable]
  intro h
  exact hdiff (congrFun (h foo_member.c (by simp)) j)

theorem foo_c_not_compared_as_string_witness :
    foo_t.operator_eq (foo_t.init 1 1 (braces [104, 105, 0, 120]) (braces [1]))
      (foo_t.init 1 1 (braces [104, 105, 0, 121]) (braces [1])) = false :=
  foo_c_not_compared_as_string (foo_t.init 1 1 (braces [104, 105, 0, 120]) (braces [1]))
    (foo_t.init 1 1 (braces [104, 105, 0, 121]) (braces [1])) 2 3 rfl rfl rfl (by decide)
    rfl (by decide) (by decide) (by decide)

/-- Claim C19. The `operator==` of `foo_t`, based on `pod_compare`, agrees with the
defaulted memberwise `operator==` of the same-shaped struct `Bar`: for two `foo_t`
values (their `a` in the range of `int16_t`) and the two `Bar` values holding the same
field contents, `a` carried over by its 16-bit pattern, both operators return the same
boolean; in particular both comparisons of `main`, built from `(1, 1, {1, 1})`, are
true. -/
theorem foo_operator_eq_agrees_with_defaulted_Bar (x y : foo_t.Obj)
    (hx : int16_range (foo_t.a x)) (hy : int16_range (foo_t.a y)) :
    foo_t.operator_eq x y = Bar.operator_eq (Bar.of_foo x) (Bar.of_foo y) ∧
      foo_t.operator_eq main_foo main_foo = true ∧
      Bar.operator_eq main_bar main_bar = true := by
  refine ⟨?_, by decide, by decide⟩
  rw [Bool.eq_iff_iff]
  unfold foo_t.operator_eq
  rw [pod_compare_iff_agree foo_t_comparable]
  have ha : int16_to_uint16 (foo_t.a x) = int16_to_uint16 (foo_t.a y) ↔
      foo_t.a x = foo_t.a y := by
    unfold int16_range at hx hy
    unfold int16_to_uint16
    omega
  simp only [Bar.operator_eq, Bar.of_foo, Bool.and_eq_true, List.all_eq_true, uint_eq, int_eq,
    decide_eq_true_eq, ha, List.mem_finRange, forall_true_left]
  constructor
  · intro h
    refine ⟨⟨⟨h _ (by simp), h _ (by simp)⟩, ?_⟩, ?_⟩
    · intro i
      exact congrFun (h foo_member.c (by simp)) i
    · intro i
      exact congrFun (h foo_member.d (by simp)) i
  · rintro ⟨⟨⟨h1, h2⟩, h3⟩, h4⟩ m -
    cases m
    · exact h1
    · exact h2
    · exact funext h3
    · exact funext h4

theorem foo_operator_eq_agrees_with_defaulted_Bar_witness :
    int16_range (foo_t.a (foo_t.init (-1) 1 (braces [1, 1]) (braces []))) ∧
      int16_range (foo_t.a main_foo) ∧
      (foo_t.operator_eq (foo_t.init (-1) 1 (braces [1, 1]) (braces [])) main_foo =
          Bar.operator_eq (Bar.of_foo (foo_t.init (-1) 1 (braces [1, 1]) (braces [])))
            (Bar.of_foo main_foo) ∧
        foo_t.operator_eq main_foo main_foo = true ∧
        Bar.operator_eq main_bar main_bar = true) :=
  have h1 : int16_range (foo_t.a (foo_t.init (-1) 1 (braces [1, 1]) (braces []))) := by
    unfold int16_range
    decide
  have h2 : int16_range (foo_t.a main_foo) := by
    unfold int16_range
    decide
  ⟨h1, h2, foo_operator_eq_agrees_with_defaulted_Bar _ _ h1 h2⟩

end DefaultCompare
